import Mathlib

/-!
A verification model of the store-monitoring uptime/downtime report engine.

Timestamps are modelled as integers counting microseconds (the resolution of
Python's `datetime`).  A UTC instant is an `Int`; a store-local instant is the
UTC instant plus a fixed per-store offset (the timezone model).  Calendar days
of the local clock are the half-open intervals `[k*usPerDay, (k+1)*usPerDay)`,
and day number `k` has weekday `k mod 7` with day 0 a Monday (Python's
`weekday()`: Monday = 0).  Double-precision float arithmetic of the original
program is modelled by exact rational arithmetic over `ℚ`.
-/

namespace StoreMonitoring

def usPerSecond : Int := 1000000

def usPerMinute : Int := 60000000

def usPerHour : Int := 3600000000

def usPerDay : Int := 86400000000

def usPerWeek : Int := 604800000000

/-- A local time of day `time(h, m, s)`, in microseconds since local midnight. -/
def mkTime (h m s : Int) : Int := (h * 3600 + m * 60 + s) * usPerSecond

/-- The local calendar-day number holding instant `t` (floor division, so it is
also correct before the epoch). -/
def dateOf (t : Int) : Int := t.fdiv usPerDay

/-- Python `dt.replace(hour=.., minute=.., second=.., microsecond=..)`: keep the
date of `t`, set the time of day to `tod` microseconds. -/
def replaceTime (t tod : Int) : Int := dateOf t * usPerDay + tod

/-- Python `dt.weekday()`: Monday = 0 .. Sunday = 6; day 0 is a Monday. -/
def weekdayOf (t : Int) : Int := (dateOf t).fmod 7

/-- Python `(dt + timedelta(days=1)).replace(hour=0, minute=0, second=0,
microsecond=0)`: midnight starting the next calendar day. -/
def nextMidnight (t : Int) : Int := (dateOf t + 1) * usPerDay

/-- One `StoreStatus` observation row: a UTC timestamp and a status string
(`"active"` or `"inactive"`). -/
structure Observation where
  timestamp_utc : Int
  status : String
deriving Repr, DecidableEq

/-- One `BusinessHours` rule row: weekday (Monday = 0) and local start/end
times of day in microseconds since local midnight. -/
structure BusinessHours where
  day_of_week : Int
  start_time_local : Int
  end_time_local : Int
deriving Repr, DecidableEq

/-- The ordering used by the observation query (`ORDER BY timestamp_utc`). -/
def obsLe (a b : Observation) : Prop := a.timestamp_utc ≤ b.timestamp_utc

instance : DecidableRel obsLe := fun a b =>
  inferInstanceAs (Decidable (a.timestamp_utc ≤ b.timestamp_utc))

instance : IsTotal Observation obsLe :=
  ⟨fun a b => Int.le_total a.timestamp_utc b.timestamp_utc⟩

instance : IsTrans Observation obsLe :=
  ⟨fun _ _ _ h1 h2 => le_trans h1 h2⟩

/-- `_get_status_observations`: the store's observations with
`start_time <= timestamp_utc <= end_time`, ordered ascending by timestamp
(stable sort, ties keep arrival order). -/
def get_status_observations (obs : List Observation) (start_time end_time : Int) :
    List Observation :=
  List.insertionSort obsLe
    (obs.filter (fun o =>
      decide (start_time ≤ o.timestamp_utc) && decide (o.timestamp_utc ≤ end_time)))

/-- `_create_24_7_business_hours`: one rule per weekday, 00:00:00 to 23:59:59
local. -/
def create_24_7_business_hours : List BusinessHours :=
  [⟨0, 0, mkTime 23 59 59⟩, ⟨1, 0, mkTime 23 59 59⟩, ⟨2, 0, mkTime 23 59 59⟩,
   ⟨3, 0, mkTime 23 59 59⟩, ⟨4, 0, mkTime 23 59 59⟩, ⟨5, 0, mkTime 23 59 59⟩,
   ⟨6, 0, mkTime 23 59 59⟩]

/-- `_get_business_hours`: the store's rules, or the implicit 24/7 set when the
store has no rules at all. -/
def get_business_hours (rules : List BusinessHours) : List BusinessHours :=
  if rules.isEmpty then create_24_7_business_hours else rules

/-- `_get_business_hours_for_day`: first rule whose weekday matches, else none. -/
def get_business_hours_for_day (business_hours : List BusinessHours) (weekday : Int) :
    Option BusinessHours :=
  business_hours.find? (fun bh => decide (bh.day_of_week = weekday))

/-- The business-hours segment of one local calendar day: anchor the rule's
start/end times of day on the date of `day_start`, shift the end forward one
day for an overnight rule (`end <= start`), then clamp to
`[day_start, day_end]`.  Returns `(period_start, period_end)`. -/
def segBounds (bh : BusinessHours) (day_start day_end : Int) : Int × Int :=
  let bh_start := replaceTime day_start bh.start_time_local
  let bh_end_base := replaceTime day_start bh.end_time_local
  let bh_end :=
    if bh.end_time_local ≤ bh.start_time_local then bh_end_base + usPerDay else bh_end_base
  (max bh_start day_start, min bh_end day_end)

/-- The observations whose local timestamp lies inside `[period_start,
period_end]` (both ends inclusive, as in the source), as (local time, status)
pairs, keeping the incoming order. -/
def businessObservations (status_observations : List Observation)
    (tz period_start period_end : Int) : List (Int × String) :=
  (status_observations.filter (fun o =>
      decide (period_start ≤ o.timestamp_utc + tz) &&
      decide (o.timestamp_utc + tz ≤ period_end))).map
    (fun o => (o.timestamp_utc + tz, o.status))

/-- `_interpolate_uptime` boundary step one: if the segment has no points or
its first point is after `period_start`, prepend a synthesized point at
`period_start` carrying the first point's status (or `"active"` when empty). -/
def addStartBoundary (observations : List (Int × String)) (period_start : Int) :
    List (Int × String) :=
  match observations with
  | [] => [(period_start, "active")]
  | (t, s) :: rest =>
      if period_start < t then (period_start, s) :: (t, s) :: rest else (t, s) :: rest

/-- `_interpolate_uptime` boundary step two: if the last point is before
`period_end`, append a synthesized point at `period_end` carrying the last
point's status (or `"active"` when empty). -/
def addEndBoundary (observations : List (Int × String)) (period_end : Int) :
    List (Int × String) :=
  match observations.getLast? with
  | none => [(period_end, "active")]
  | some (t, s) => if t < period_end then observations ++ [(period_end, s)] else observations

/-- The pairwise walk of `_interpolate_uptime`: each consecutive interval is
credited (in microseconds) exactly when the status at its left endpoint is
`"active"`. -/
def pairwiseUptimeUs : List (Int × String) → Int
  | (t1, s1) :: (t2, s2) :: rest =>
      (if s1 = "active" then t2 - t1 else 0) + pairwiseUptimeUs ((t2, s2) :: rest)
  | _ => 0

/-- `_interpolate_uptime`: add both boundary points, walk pairwise, return
hours. -/
def interpolate_uptime (observations : List (Int × String))
    (period_start period_end : Int) : ℚ :=
  ((pairwiseUptimeUs (addEndBoundary (addStartBoundary observations period_start) period_end)
      : Int) : ℚ) / ((usPerHour : Int) : ℚ)

/-- `_calculate_day_uptime`: uptime (hours) contributed by one local calendar
day.  Empty segment gives zero; a segment without observations is fully
credited (optimistic default); otherwise interpolate. -/
def calculate_day_uptime (status_observations : List Observation) (bh : BusinessHours)
    (tz day_start day_end : Int) : ℚ :=
  let ps := (segBounds bh day_start day_end).1
  let pe := (segBounds bh day_start day_end).2
  if pe ≤ ps then 0
  else
    let bobs := businessObservations status_observations tz ps pe
    if bobs.isEmpty then ((pe - ps : Int) : ℚ) / ((usPerHour : Int) : ℚ)
    else interpolate_uptime bobs ps pe

/-- The day-by-day while loop of `_calculate_uptime_for_period`, with explicit
fuel (the loop advances to the next local midnight each iteration). -/
def uptimeDayLoop (status_observations : List Observation)
    (business_hours : List BusinessHours) (tz : Int) :
    Nat → Int → Int → ℚ
  | 0, _, _ => 0
  | fuel + 1, current, end_local =>
    if current < end_local then
      (match get_business_hours_for_day business_hours (weekdayOf current) with
        | some bh =>
            calculate_day_uptime status_observations bh tz current
              (min end_local (replaceTime current (usPerDay - 1)))
        | none => 0)
      + uptimeDayLoop status_observations business_hours tz fuel (nextMidnight current) end_local
    else 0

/-- Enough loop iterations to cover every local calendar day touched by
`[start_local, end_local)`. -/
def dayFuel (start_local end_local : Int) : Nat :=
  ((end_local - start_local).fdiv usPerDay + 2).toNat

/-- `_calculate_uptime_for_period`: total uptime over the window, in minutes
when the window is at most one hour, else in hours. -/
def calculate_uptime_for_period (status_observations : List Observation)
    (business_hours : List BusinessHours) (tz start_time end_time : Int) : ℚ :=
  let start_local := start_time + tz
  let end_local := end_time + tz
  let total_uptime :=
    uptimeDayLoop status_observations business_hours tz
      (dayFuel start_local end_local) start_local end_local
  if ((end_time - start_time : Int) : ℚ) / ((usPerHour : Int) : ℚ) ≤ 1 then
    total_uptime * 60
  else total_uptime

/-- The business-hours credit of one local calendar day: the clamped segment's
duration in hours when it is non-empty. -/
def ruleSegmentHours (bh : BusinessHours) (day_start day_end : Int) : ℚ :=
  let ps := (segBounds bh day_start day_end).1
  let pe := (segBounds bh day_start day_end).2
  if ps < pe then ((pe - ps : Int) : ℚ) / ((usPerHour : Int) : ℚ) else 0

/-- The day-by-day while loop of `_calculate_total_business_hours`. -/
def bhDayLoop (business_hours : List BusinessHours) :
    Nat → Int → Int → ℚ
  | 0, _, _ => 0
  | fuel + 1, current, end_local =>
    if current < end_local then
      (match get_business_hours_for_day business_hours (weekdayOf current) with
        | some bh =>
            ruleSegmentHours bh current (min end_local (replaceTime current (usPerDay - 1)))
        | none => 0)
      + bhDayLoop business_hours fuel (nextMidnight current) end_local
    else 0

/-- `_calculate_total_business_hours`: scheduled business hours inside the
window, in hours. -/
def calculate_total_business_hours (business_hours : List BusinessHours)
    (tz start_time end_time : Int) : ℚ :=
  bhDayLoop business_hours (dayFuel (start_time + tz) (end_time + tz))
    (start_time + tz) (end_time + tz)

/-- The six-field metrics record returned per store. -/
structure UptimeMetrics where
  uptime_last_hour : ℚ
  uptime_last_day : ℚ
  uptime_last_week : ℚ
  downtime_last_hour : ℚ
  downtime_last_day : ℚ
  downtime_last_week : ℚ
deriving Repr, DecidableEq

/-- `calculate_store_metrics`: resolve the calendar (24/7 default on an empty
rule set), pull one week of observations sorted by timestamp, compute the three
uptimes and three business-hour totals, derive each downtime as
`max 0 (business_hours - uptime)` in the window's unit. -/
def calculate_store_metrics (store_observations : List Observation)
    (store_rules : List BusinessHours) (tz current_time : Int) : UptimeMetrics :=
  let business_hours := get_business_hours store_rules
  let one_hour_ago := current_time - usPerHour
  let one_day_ago := current_time - usPerDay
  let one_week_ago := current_time - usPerWeek
  let status_observations := get_status_observations store_observations one_week_ago current_time
  let uptime_last_hour :=
    calculate_uptime_for_period status_observations business_hours tz one_hour_ago current_time
  let uptime_last_day :=
    calculate_uptime_for_period status_observations business_hours tz one_day_ago current_time
  let uptime_last_week :=
    calculate_uptime_for_period status_observations business_hours tz one_week_ago current_time
  let total_hours_last_hour :=
    calculate_total_business_hours business_hours tz one_hour_ago current_time
  let total_hours_last_day :=
    calculate_total_business_hours business_hours tz one_day_ago current_time
  let total_hours_last_week :=
    calculate_total_business_hours business_hours tz one_week_ago current_time
  { uptime_last_hour := uptime_last_hour
    uptime_last_day := uptime_last_day
    uptime_last_week := uptime_last_week
    downtime_last_hour := max 0 (total_hours_last_hour * 60 - uptime_last_hour)
    downtime_last_day := max 0 (total_hours_last_day - uptime_last_day)
    downtime_last_week := max 0 (total_hours_last_week - uptime_last_week) }

/-- One row of the `store_status` table (report-level view, with store id). -/
structure StoreStatusRec where
  store_id : String
  timestamp_utc : Int
  status : String
deriving Repr, DecidableEq

/-- One output row of the report (fixed column order as in the CSV). -/
structure ReportRow where
  store_id : String
  uptime_last_hour : ℚ
  uptime_last_day : ℚ
  uptime_last_week : ℚ
  downtime_last_hour : ℚ
  downtime_last_day : ℚ
  downtime_last_week : ℚ
deriving Repr, DecidableEq

/-- The terminal state of a report job: Complete with the rows written and the
output location, or Failed with the captured error message and no output
location. -/
inductive JobResult where
  | complete (rows : List ReportRow) (file_path : String)
  | failed (error_message : String)
deriving Repr, DecidableEq

/-- The all-zero row written for a store whose computation raised. -/
def zeroRow (sid : String) : ReportRow := ⟨sid, 0, 0, 0, 0, 0, 0⟩

/-- The row assembled from a successfully computed metrics record; the values
are carried over unchanged. -/
def rowOfMetrics (sid : String) (m : UptimeMetrics) : ReportRow :=
  ⟨sid, m.uptime_last_hour, m.uptime_last_day, m.uptime_last_week,
    m.downtime_last_hour, m.downtime_last_day, m.downtime_last_week⟩

/-- `CsvWriter.write_report`: raises `ValueError("No data to write to CSV")` on
an empty row set, else returns the output path. -/
def write_report (report_id : String) (data : List ReportRow) : Except String String :=
  if data.isEmpty then Except.error "No data to write to CSV"
  else Except.ok ("reports/store_report_" ++ report_id ++ ".csv")

/-- The row produced for one store inside the per-store try/except of
`_generate_report`: the computed metrics on success, the all-zero row when the
computation raised. -/
def reportRowFor (compute : String → Int → Except String UptimeMetrics)
    (current_time : Int) (sid : String) : ReportRow :=
  match compute sid current_time with
  | Except.ok m => rowOfMetrics sid m
  | Except.error _ => zeroRow sid

/-- `_generate_report`: `setup` models establishing the as-of instant and the
store-id universe (the part whose failure is caught only by the outermost
try/except); `compute` models `calculate_store_metrics` for one store, which
may raise.  Rows are produced in store-id-list order, the CSV write may raise,
and the job ends Complete or Failed accordingly. -/
def generate_report (report_id : String) (setup : Except String (Int × List String))
    (compute : String → Int → Except String UptimeMetrics) : JobResult :=
  match setup with
  | Except.error e => JobResult.failed e
  | Except.ok (current_time, store_ids) =>
    let report_data := store_ids.map (reportRowFor compute current_time)
    match write_report report_id report_data with
    | Except.ok file_path => JobResult.complete report_data file_path
    | Except.error e => JobResult.failed e

/-- `SELECT DISTINCT store_id` carries no ORDER BY; its returned order is
modelled as first-occurrence order of the ingested rows. -/
def dedupFirstAux : List String → List String → List String
  | [], _ => []
  | x :: xs, seen =>
      if x ∈ seen then dedupFirstAux xs seen else x :: dedupFirstAux xs (x :: seen)

/-- `_get_all_store_ids`: the distinct store ids present in the observation
data, in the (unsorted) order the query returns them. -/
def get_all_store_ids (recs : List StoreStatusRec) : List String :=
  dedupFirstAux (recs.map (fun r => r.store_id)) []

/-- `_get_max_timestamp`: the maximum observation timestamp; on an empty table
the query returns NULL, which the report loop then never reads (modelled by a
default of 0). -/
def get_max_timestamp (recs : List StoreStatusRec) : Int :=
  ((recs.map (fun r => r.timestamp_utc)).max?).getD 0

/-- The observations of one store, as seen by `calculate_store_metrics`. -/
def storeObservationsOf (recs : List StoreStatusRec) (sid : String) : List Observation :=
  (recs.filter (fun r => decide (r.store_id = sid))).map
    (fun r => ⟨r.timestamp_utc, r.status⟩)

/-- The whole report run over a concrete dataset: freeze the as-of instant,
read the store universe, compute every store's metrics (here total, so the
per-store except branch is never taken), write the CSV. -/
def run_report_pipeline (report_id : String) (recs : List StoreStatusRec)
    (rulesOf : String → List BusinessHours) (tzOf : String → Int) : JobResult :=
  generate_report report_id
    (Except.ok (get_max_timestamp recs, get_all_store_ids recs))
    (fun sid t =>
      Except.ok (calculate_store_metrics (storeObservationsOf recs sid) (rulesOf sid)
        (tzOf sid) t))

/-- The store ids of the emitted rows, in emission order. -/
def rowIdsOf : JobResult → List String
  | JobResult.complete rows _ => rows.map (fun r => r.store_id)
  | JobResult.failed _ => []

/-- A value carries at most two decimal places, i.e. it is an integer number of
hundredths.  This is what a value "rounded to 2 decimal places" must satisfy. -/
def roundedTo2dp (q : ℚ) : Prop := ∃ k : Int, q = (k : ℚ) / 100

/-- Following the spec's words, the credit of the tail of the point walk: each
consecutive pair is credited iff the left state is active, and the final
interval up to `period_end` carries the latest observation's state (extended
forward).  In microseconds. -/
def specTailCreditUs : List (Int × String) → Int → Int
  | [], _ => 0
  | [(t, s)], period_end => if s = "active" then period_end - t else 0
  | (t1, s1) :: (t2, s2) :: rest, period_end =>
      (if s1 = "active" then t2 - t1 else 0) + specTailCreditUs ((t2, s2) :: rest) period_end

/-- Following the spec's words, forward-fill uptime of a segment with at least
one observation: the interval from segment start to the earliest observation
carries that observation's state (extrapolated backward), then the pairwise
right-open step walk with forward extension to segment end.  In microseconds. -/
def specForwardFillUs (points : List (Int × String)) (period_start period_end : Int) : Int :=
  match points with
  | [] => 0
  | (t0, s0) :: _ =>
      (if s0 = "active" then t0 - period_start else 0) + specTailCreditUs points period_end

/-- Integer-microsecond mirror of `ruleSegmentHours` (used to evaluate concrete
instances without rational arithmetic). -/
def ruleSegmentUs (bh : BusinessHours) (day_start day_end : Int) : Int :=
  let ps := (segBounds bh day_start day_end).1
  let pe := (segBounds bh day_start day_end).2
  if ps < pe then pe - ps else 0

/-- Integer-microsecond mirror of `bhDayLoop`. -/
def bhDayLoopUs (business_hours : List BusinessHours) :
    Nat → Int → Int → Int
  | 0, _, _ => 0
  | fuel + 1, current, end_local =>
    if current < end_local then
      (match get_business_hours_for_day business_hours (weekdayOf current) with
        | some bh =>
            ruleSegmentUs bh current (min end_local (replaceTime current (usPerDay - 1)))
        | none => 0)
      + bhDayLoopUs business_hours fuel (nextMidnight current) end_local
    else 0

/-- Pointwise order on (local time, status) pairs, by time. -/
def ptLe (a b : Int × String) : Prop := a.1 ≤ b.1

/-- As-of instant used in several concrete scenarios: local noon of day 10. -/
def asOf4 : Int := 10 * usPerDay + 12 * usPerHour

/-- Overnight rule: Monday (weekday 0) 22:00 to 06:00 the next morning. -/
def rule3 : BusinessHours := ⟨0, mkTime 22 0 0, mkTime 6 0 0⟩

/-- As-of instant for the overnight scenario: Tuesday 06:00 local (end of the
overnight span that started Monday 22:00). -/
def asOf3 : Int := usPerDay + 6 * usPerHour

/-- Rule 09:00 to 17:00 on Monday (weekday 0). -/
def rule5 : BusinessHours := ⟨0, mkTime 9 0 0, mkTime 17 0 0⟩

/-- As-of instant for the no-observation scenario: a Monday (day 7), 12:00
local. -/
def asOf5 : Int := 7 * usPerDay + 12 * usPerHour

/-- Seven active observations, one at local noon of each day of the trailing
week before `asOf4`. -/
def weekActiveObs : List Observation :=
  [⟨3 * usPerDay + 12 * usPerHour, "active"⟩, ⟨4 * usPerDay + 12 * usPerHour, "active"⟩,
   ⟨5 * usPerDay + 12 * usPerHour, "active"⟩, ⟨6 * usPerDay + 12 * usPerHour, "active"⟩,
   ⟨7 * usPerDay + 12 * usPerHour, "active"⟩, ⟨8 * usPerDay + 12 * usPerHour, "active"⟩,
   ⟨9 * usPerDay + 12 * usPerHour, "active"⟩]

/-- Report dataset with a single store and a single active observation. -/
def singleStoreRecs : List StoreStatusRec := [⟨"s", asOf4, "active"⟩]

/-- Report dataset whose store ids first occur in the order b, a, c. -/
def unsortedRecs : List StoreStatusRec :=
  [⟨"b", 100, "active"⟩, ⟨"a", 200, "active"⟩, ⟨"c", 300, "active"⟩]

lemma pairwiseUptimeUs_le_of_chain (l : List (Int × String)) :
    List.Chain' ptLe l → ∀ x ∈ l.getLast?, ∀ y ∈ l.head?, pairwiseUptimeUs l ≤ x.1 - y.1 := by
  induction l with
  | nil => intro _ x hx; simp at hx
  | cons a tl ih =>
    intro hc x hx y hy
    simp only [List.head?_cons, Option.mem_def, Option.some.injEq] at hy
    cases tl with
    | nil =>
      simp only [List.getLast?_singleton, Option.mem_def, Option.some.injEq] at hx
      subst hx; subst hy
      simp [pairwiseUptimeUs]
    | cons b tl2 =>
      rw [List.chain'_cons] at hc
      have hx2 : x ∈ (b :: tl2).getLast? := by
        simpa [List.getLast?_cons_cons] using hx
      have ih2 := ih hc.2 x hx2 b (by simp)
      have hab : a.1 ≤ b.1 := hc.1
      obtain ⟨t1, s1⟩ := a
      obtain ⟨t2, s2⟩ := b
      subst hy
      show (if s1 = "active" then t2 - t1 else 0) + pairwiseUptimeUs ((t2, s2) :: tl2) ≤ x.1 - t1
      simp only at ih2 hab
      split <;> omega

lemma pairwiseUptimeUs_eq_of_active (l : List (Int × String)) :
    (∀ p ∈ l, p.2 = "active") →
    ∀ x ∈ l.getLast?, ∀ y ∈ l.head?, pairwiseUptimeUs l = x.1 - y.1 := by
  induction l with
  | nil => intro _ x hx; simp at hx
  | cons a tl ih =>
    intro hact x hx y hy
    simp only [List.head?_cons, Option.mem_def, Option.some.injEq] at hy
    cases tl with
    | nil =>
      simp only [List.getLast?_singleton, Option.mem_def, Option.some.injEq] at hx
      subst hx; subst hy
      simp [pairwiseUptimeUs]
    | cons b tl2 =>
      have hx2 : x ∈ (b :: tl2).getLast? := by
        simpa [List.getLast?_cons_cons] using hx
      have ih2 := ih (fun p hp => hact p (List.mem_cons_of_mem a hp)) x hx2 b (by simp)
      have ha : a.2 = "active" := hact a (List.mem_cons_self _ _)
      obtain ⟨t1, s1⟩ := a
      obtain ⟨t2, s2⟩ := b
      subst hy
      show (if s1 = "active" then t2 - t1 else 0) + pairwiseUptimeUs ((t2, s2) :: tl2) = x.1 - t1
      simp only at ih2 ha
      rw [if_pos ha, ih2]
      ring

lemma addStartBoundary_ne_nil (pts : List (Int × String)) (ps : Int) :
    addStartBoundary pts ps ≠ [] := by
  unfold addStartBoundary
  cases pts with
  | nil => simp
  | cons a tl => obtain ⟨t, s⟩ := a; dsimp only; split <;> simp

lemma addStartBoundary_head (pts : List (Int × String)) (ps : Int)
    (hmem : ∀ p ∈ pts, ps ≤ p.1) :
    ∀ y ∈ (addStartBoundary pts ps).head?, y.1 = ps := by
  intro y hy
  unfold addStartBoundary at hy
  cases pts with
  | nil => simp at hy; subst hy; rfl
  | cons a tl =>
    obtain ⟨t, s⟩ := a
    dsimp only at hy
    split at hy
    · simp at hy; subst hy; rfl
    · simp at hy
      have := hmem (t, s) (List.mem_cons_self _ _)
      subst hy
      simp only
      omega

lemma addStartBoundary_mem (pts : List (Int × String)) (ps : Int) (p : Int × String)
    (hp : p ∈ addStartBoundary pts ps) :
    (p.1 = ps ∧ (p.2 = "active" ∨ ∃ q ∈ pts, p.2 = q.2)) ∨ p ∈ pts := by
  unfold addStartBoundary at hp
  cases pts with
  | nil =>
    simp at hp; subst hp
    exact Or.inl ⟨rfl, Or.inl rfl⟩
  | cons a tl =>
    obtain ⟨t, s⟩ := a
    dsimp only at hp
    split at hp
    · rcases List.mem_cons.mp hp with h | h
      · subst h
        exact Or.inl ⟨rfl, Or.inr ⟨(t, s), List.mem_cons_self _ _, rfl⟩⟩
      · exact Or.inr h
    · exact Or.inr hp

lemma addStartBoundary_chain (pts : List (Int × String)) (ps : Int)
    (hmem : ∀ p ∈ pts, ps ≤ p.1) (hc : List.Chain' ptLe pts) :
    List.Chain' ptLe (addStartBoundary pts ps) := by
  unfold addStartBoundary
  cases pts with
  | nil => exact List.chain'_singleton _
  | cons a tl =>
    obtain ⟨t, s⟩ := a
    dsimp only
    split
    · exact List.chain'_cons.mpr ⟨le_of_lt (by assumption), hc⟩
    · exact hc

lemma exists_getLast?_of_ne_nil (l : List (Int × String)) (hl : l ≠ []) :
    ∃ z, l.getLast? = some z := by
  cases h : l.getLast? with
  | none => rw [List.getLast?_eq_none_iff] at h; exact absurd h hl
  | some z => exact ⟨z, rfl⟩

lemma addEndBoundary_eq (l : List (Int × String)) (pe tz : Int) (sz : String)
    (hz : l.getLast? = some (tz, sz)) :
    addEndBoundary l pe = if tz < pe then l ++ [(pe, sz)] else l := by
  unfold addEndBoundary
  rw [hz]

lemma addEndBoundary_head (l : List (Int × String)) (pe : Int) (hl : l ≠ []) :
    (addEndBoundary l pe).head? = l.head? := by
  obtain ⟨⟨tz, sz⟩, hz⟩ := exists_getLast?_of_ne_nil l hl
  obtain ⟨a, l2, rfl⟩ := List.exists_cons_of_ne_nil hl
  rw [addEndBoundary_eq _ pe tz sz hz]
  split <;> simp

lemma addEndBoundary_ne_nil (l : List (Int × String)) (pe : Int) :
    addEndBoundary l pe ≠ [] := by
  cases l with
  | nil => simp [addEndBoundary]
  | cons a tl =>
    obtain ⟨⟨tz, sz⟩, hz⟩ := exists_getLast?_of_ne_nil (a :: tl) (by simp)
    rw [addEndBoundary_eq _ pe tz sz hz]
    split <;> simp

lemma addEndBoundary_getLast (l : List (Int × String)) (pe : Int) (hl : l ≠ [])
    (hmem : ∀ p ∈ l, p.1 ≤ pe) :
    ∀ x ∈ (addEndBoundary l pe).getLast?, x.1 = pe := by
  intro x hx
  obtain ⟨⟨tz, sz⟩, hz⟩ := exists_getLast?_of_ne_nil l hl
  rw [addEndBoundary_eq _ pe tz sz hz] at hx
  split at hx
  · rw [List.getLast?_concat] at hx
    simp at hx; subst hx; rfl
  · rw [hz] at hx
    simp only [Option.mem_def, Option.some.injEq] at hx
    have hmem2 : tz ≤ pe := hmem (tz, sz) (List.mem_of_mem_getLast? hz)
    subst hx
    simp only
    omega

lemma addEndBoundary_mem (l : List (Int × String)) (pe : Int) (p : Int × String)
    (hp : p ∈ addEndBoundary l pe) :
    (p.1 = pe ∧ (p.2 = "active" ∨ ∃ q ∈ l, p.2 = q.2)) ∨ p ∈ l := by
  cases l with
  | nil =>
    simp [addEndBoundary] at hp
    subst hp
    exact Or.inl ⟨rfl, Or.inl rfl⟩
  | cons a tl =>
    obtain ⟨⟨tz, sz⟩, hz⟩ := exists_getLast?_of_ne_nil (a :: tl) (by simp)
    rw [addEndBoundary_eq _ pe tz sz hz] at hp
    split at hp
    · rcases List.mem_append.mp hp with h | h
      · exact Or.inr h
      · simp at h; subst h
        exact Or.inl ⟨rfl, Or.inr ⟨(tz, sz), List.mem_of_mem_getLast? hz, rfl⟩⟩
    · exact Or.inr hp

lemma addEndBoundary_chain (l : List (Int × String)) (pe : Int)
    (hmem : ∀ p ∈ l, p.1 ≤ pe) (hc : List.Chain' ptLe l) :
    List.Chain' ptLe (addEndBoundary l pe) := by
  cases l with
  | nil =>
    simp only [addEndBoundary]
    exact List.chain'_singleton _
  | cons a tl =>
    obtain ⟨⟨tz, sz⟩, hz⟩ := exists_getLast?_of_ne_nil (a :: tl) (by simp)
    rw [addEndBoundary_eq _ pe tz sz hz]
    split
    · refine List.chain'_append.mpr ⟨hc, List.chain'_singleton _, ?_⟩
      intro x hx y hy
      simp only [List.head?_cons, Option.mem_def, Option.some.injEq] at hy
      subst hy
      exact hmem x (List.mem_of_mem_getLast? hx)
    · exact hc

lemma interpolate_uptime_le (pts : List (Int × String)) (ps pe : Int)
    (hc : List.Chain' ptLe pts)
    (hmem : ∀ p ∈ pts, ps ≤ p.1 ∧ p.1 ≤ pe) (hpe : ps ≤ pe) :
    interpolate_uptime pts ps pe ≤ ((pe - ps : Int) : ℚ) / ((usPerHour : Int) : ℚ) := by
  have hl1ne := addStartBoundary_ne_nil pts ps
  have hmem1 : ∀ p ∈ addStartBoundary pts ps, ps ≤ p.1 ∧ p.1 ≤ pe := by
    intro p hp
    rcases addStartBoundary_mem pts ps p hp with h | h
    · exact ⟨le_of_eq h.1.symm, h.1 ▸ hpe⟩
    · exact hmem p h
  have hc1 := addStartBoundary_chain pts ps (fun p hp => (hmem p hp).1) hc
  have hhead1 := addStartBoundary_head pts ps (fun p hp => (hmem p hp).1)
  have hc2 := addEndBoundary_chain _ pe (fun p hp => (hmem1 p hp).2) hc1
  have hlast2 := addEndBoundary_getLast _ pe hl1ne (fun p hp => (hmem1 p hp).2)
  have hl2ne := addEndBoundary_ne_nil (addStartBoundary pts ps) pe
  obtain ⟨y2, hy2⟩ : ∃ y, (addEndBoundary (addStartBoundary pts ps) pe).head? = some y := by
    cases h : (addEndBoundary (addStartBoundary pts ps) pe).head? with
    | none => rw [List.head?_eq_none_iff] at h; exact absurd h hl2ne
    | some y => exact ⟨y, rfl⟩
  obtain ⟨x2, hx2⟩ : ∃ x, (addEndBoundary (addStartBoundary pts ps) pe).getLast? = some x := by
    cases h : (addEndBoundary (addStartBoundary pts ps) pe).getLast? with
    | none => rw [List.getLast?_eq_none_iff] at h; exact absurd h hl2ne
    | some x => exact ⟨x, rfl⟩
  have hbound := pairwiseUptimeUs_le_of_chain _ hc2 x2 hx2 y2 hy2
  have hx2v : x2.1 = pe := hlast2 x2 hx2
  have hy2v : y2.1 = ps := by
    apply hhead1
    rw [← addEndBoundary_head (addStartBoundary pts ps) pe hl1ne]
    exact hy2
  rw [hx2v, hy2v] at hbound
  unfold interpolate_uptime
  have hHpos : (0 : ℚ) < ((usPerHour : Int) : ℚ) := by norm_num [usPerHour]
  exact div_le_div_of_nonneg_right (by exact_mod_cast hbound) (le_of_lt hHpos)

lemma interpolate_uptime_eq_of_active (pts : List (Int × String)) (ps pe : Int)
    (hmem : ∀ p ∈ pts, ps ≤ p.1 ∧ p.1 ≤ pe)
    (hact : ∀ p ∈ pts, p.2 = "active") (hpe : ps ≤ pe) :
    interpolate_uptime pts ps pe = ((pe - ps : Int) : ℚ) / ((usPerHour : Int) : ℚ) := by
  have hl1ne := addStartBoundary_ne_nil pts ps
  have hmem1 : ∀ p ∈ addStartBoundary pts ps, ps ≤ p.1 ∧ p.1 ≤ pe := by
    intro p hp
    rcases addStartBoundary_mem pts ps p hp with h | h
    · exact ⟨le_of_eq h.1.symm, h.1 ▸ hpe⟩
    · exact hmem p h
  have hact1 : ∀ p ∈ addStartBoundary pts ps, p.2 = "active" := by
    intro p hp
    rcases addStartBoundary_mem pts ps p hp with h | h
    · rcases h.2 with h2 | ⟨q, hq, h2⟩
      · exact h2
      · exact h2.trans (hact q hq)
    · exact hact p h
  have hact2 : ∀ p ∈ addEndBoundary (addStartBoundary pts ps) pe, p.2 = "active" := by
    intro p hp
    rcases addEndBoundary_mem _ pe p hp with h | h
    · rcases h.2 with h2 | ⟨q, hq, h2⟩
      · exact h2
      · exact h2.trans (hact1 q hq)
    · exact hact1 p h
  have hhead1 := addStartBoundary_head pts ps (fun p hp => (hmem p hp).1)
  have hlast2 := addEndBoundary_getLast _ pe hl1ne (fun p hp => (hmem1 p hp).2)
  have hl2ne := addEndBoundary_ne_nil (addStartBoundary pts ps) pe
  obtain ⟨y2, hy2⟩ : ∃ y, (addEndBoundary (addStartBoundary pts ps) pe).head? = some y := by
    cases h : (addEndBoundary (addStartBoundary pts ps) pe).head? with
    | none => rw [List.head?_eq_none_iff] at h; exact absurd h hl2ne
    | some y => exact ⟨y, rfl⟩
  obtain ⟨x2, hx2⟩ : ∃ x, (addEndBoundary (addStartBoundary pts ps) pe).getLast? = some x := by
    cases h : (addEndBoundary (addStartBoundary pts ps) pe).getLast? with
    | none => rw [List.getLast?_eq_none_iff] at h; exact absurd h hl2ne
    | some x => exact ⟨x, rfl⟩
  have htel := pairwiseUptimeUs_eq_of_active _ hact2 x2 hx2 y2 hy2
  have hx2v : x2.1 = pe := hlast2 x2 hx2
  have hy2v : y2.1 = ps := by
    apply hhead1
    rw [← addEndBoundary_head (addStartBoundary pts ps) pe hl1ne]
    exact hy2
  rw [hx2v, hy2v] at htel
  unfold interpolate_uptime
  rw [htel]

lemma addEndBoundary_cons (x : Int × String) (l : List (Int × String)) (pe : Int)
    (hl : l ≠ []) :
    addEndBoundary (x :: l) pe = x :: addEndBoundary l pe := by
  obtain ⟨⟨tz, sz⟩, hz⟩ := exists_getLast?_of_ne_nil l hl
  have hz2 : (x :: l).getLast? = some (tz, sz) := by
    obtain ⟨y, l2, rfl⟩ := List.exists_cons_of_ne_nil hl
    rw [List.getLast?_cons_cons]
    exact hz
  rw [addEndBoundary_eq _ pe tz sz hz2, addEndBoundary_eq _ pe tz sz hz]
  split <;> simp

lemma addEndBoundary_destruct (t : Int) (s : String) (l : List (Int × String)) (pe : Int) :
    ∃ r2, addEndBoundary ((t, s) :: l) pe = (t, s) :: r2 := by
  have hhead : (addEndBoundary ((t, s) :: l) pe).head? = some (t, s) := by
    rw [addEndBoundary_head _ pe (by simp)]
    simp
  cases h : addEndBoundary ((t, s) :: l) pe with
  | nil => exact absurd h (addEndBoundary_ne_nil _ _)
  | cons a r2 =>
    rw [h] at hhead
    simp only [List.head?_cons, Option.some.injEq] at hhead
    exact ⟨r2, by rw [hhead]⟩

lemma addStartBoundary_cons_eq (t0 : Int) (s0 : String) (rest : List (Int × String))
    (ps : Int) :
    addStartBoundary ((t0, s0) :: rest) ps =
      if ps < t0 then (ps, s0) :: (t0, s0) :: rest else (t0, s0) :: rest := rfl

lemma pairwise_addEnd_eq_specTail :
    ∀ (l : List (Int × String)) (pe : Int), l ≠ [] → (∀ p ∈ l, p.1 ≤ pe) →
      pairwiseUptimeUs (addEndBoundary l pe) = specTailCreditUs l pe
  | [], _, h, _ => absurd rfl h
  | [(t, s)], pe, _, hmem => by
      have ht : t ≤ pe := hmem (t, s) (List.mem_cons_self _ _)
      have hz : ([(t, s)] : List (Int × String)).getLast? = some (t, s) :=
        List.getLast?_singleton _
      rw [addEndBoundary_eq _ pe t s hz]
      split
      · show pairwiseUptimeUs [(t, s), (pe, s)] = _
        simp [pairwiseUptimeUs, specTailCreditUs]
      · have hte : t = pe := le_antisymm ht (not_lt.mp (by assumption))
        subst hte
        simp [pairwiseUptimeUs, specTailCreditUs]
  | (t1, s1) :: (t2, s2) :: rest, pe, _, hmem => by
      rw [addEndBoundary_cons (t1, s1) ((t2, s2) :: rest) pe (by simp)]
      have hih := pairwise_addEnd_eq_specTail ((t2, s2) :: rest) pe (by simp)
        (fun p hp => hmem p (List.mem_cons_of_mem _ hp))
      obtain ⟨r2, hr2⟩ := addEndBoundary_destruct t2 s2 rest pe
      rw [hr2]
      show (if s1 = "active" then t2 - t1 else 0) + pairwiseUptimeUs ((t2, s2) :: r2) = _
      rw [← hr2, hih]
      rfl

lemma interpolate_eq_specForwardFill (pts : List (Int × String)) (ps pe : Int)
    (hne : pts ≠ []) (hmem : ∀ p ∈ pts, ps ≤ p.1 ∧ p.1 ≤ pe) :
    interpolate_uptime pts ps pe =
      ((specForwardFillUs pts ps pe : Int) : ℚ) / ((usPerHour : Int) : ℚ) := by
  obtain ⟨⟨t0, s0⟩, rest, rfl⟩ := List.exists_cons_of_ne_nil hne
  have hkey : pairwiseUptimeUs
      (addEndBoundary (addStartBoundary ((t0, s0) :: rest) ps) pe) =
      specForwardFillUs ((t0, s0) :: rest) ps pe := by
    have hmemle : ∀ p ∈ (t0, s0) :: rest, p.1 ≤ pe := fun p hp => (hmem p hp).2
    rw [addStartBoundary_cons_eq]
    by_cases hlt : ps < t0
    · rw [if_pos hlt]
      rw [addEndBoundary_cons (ps, s0) ((t0, s0) :: rest) pe (by simp)]
      obtain ⟨r2, hr2⟩ := addEndBoundary_destruct t0 s0 rest pe
      rw [hr2]
      show (if s0 = "active" then t0 - ps else 0) + pairwiseUptimeUs ((t0, s0) :: r2) = _
      rw [← hr2, pairwise_addEnd_eq_specTail ((t0, s0) :: rest) pe (by simp) hmemle]
      rfl
    · rw [if_neg hlt]
      have ht0 : t0 = ps :=
        le_antisymm (not_lt.mp hlt) (hmem (t0, s0) (List.mem_cons_self _ _)).1
      rw [pairwise_addEnd_eq_specTail ((t0, s0) :: rest) pe (by simp) hmemle]
      show _ = (if s0 = "active" then t0 - ps else 0) + specTailCreditUs ((t0, s0) :: rest) pe
      have hz : (if s0 = "active" then t0 - ps else 0) = 0 := by
        subst ht0
        split <;> omega
      rw [hz, zero_add]
  unfold interpolate_uptime
  rw [hkey]

lemma businessObservations_mem (sobs : List Observation) (tz ps pe : Int)
    (p : Int × String) (hp : p ∈ businessObservations sobs tz ps pe) :
    ps ≤ p.1 ∧ p.1 ≤ pe := by
  unfold businessObservations at hp
  simp only [List.mem_map, List.mem_filter, Bool.and_eq_true, decide_eq_true_eq] at hp
  obtain ⟨o, ⟨_, h1, h2⟩, rfl⟩ := hp
  exact ⟨h1, h2⟩

lemma businessObservations_status (sobs : List Observation) (tz ps pe : Int)
    (hact : ∀ o ∈ sobs, o.status = "active") :
    ∀ p ∈ businessObservations sobs tz ps pe, p.2 = "active" := by
  intro p hp
  unfold businessObservations at hp
  simp only [List.mem_map, List.mem_filter, Bool.and_eq_true, decide_eq_true_eq] at hp
  obtain ⟨o, ⟨ho, _, _⟩, rfl⟩ := hp
  exact hact o ho

lemma businessObservations_chain (sobs : List Observation) (tz ps pe : Int)
    (hs : List.Pairwise obsLe sobs) :
    List.Chain' ptLe (businessObservations sobs tz ps pe) := by
  apply List.Pairwise.chain'
  unfold businessObservations
  rw [List.pairwise_map]
  exact List.Pairwise.filter _ (hs.imp (fun h => Int.add_le_add_right h tz))

lemma calculate_day_uptime_eq (obs : List Observation) (bh : BusinessHours)
    (tz ds de : Int) :
    calculate_day_uptime obs bh tz ds de =
      if (segBounds bh ds de).2 ≤ (segBounds bh ds de).1 then 0
      else if (businessObservations obs tz (segBounds bh ds de).1
          (segBounds bh ds de).2).isEmpty then
        (((segBounds bh ds de).2 - (segBounds bh ds de).1 : Int) : ℚ) /
          ((usPerHour : Int) : ℚ)
      else
        interpolate_uptime
          (businessObservations obs tz (segBounds bh ds de).1 (segBounds bh ds de).2)
          (segBounds bh ds de).1 (segBounds bh ds de).2 := rfl

lemma ruleSegmentHours_eq (bh : BusinessHours) (ds de : Int) :
    ruleSegmentHours bh ds de =
      if (segBounds bh ds de).1 < (segBounds bh ds de).2 then
        (((segBounds bh ds de).2 - (segBounds bh ds de).1 : Int) : ℚ) /
          ((usPerHour : Int) : ℚ)
      else 0 := rfl

lemma ruleSegmentUs_eq (bh : BusinessHours) (ds de : Int) :
    ruleSegmentUs bh ds de =
      if (segBounds bh ds de).1 < (segBounds bh ds de).2 then
        (segBounds bh ds de).2 - (segBounds bh ds de).1
      else 0 := rfl

lemma calculate_day_uptime_le (obs : List Observation) (bh : BusinessHours)
    (tz ds de : Int) (hs : List.Pairwise obsLe obs) :
    calculate_day_uptime obs bh tz ds de ≤ ruleSegmentHours bh ds de := by
  rw [calculate_day_uptime_eq, ruleSegmentHours_eq]
  by_cases hord : (segBounds bh ds de).2 ≤ (segBounds bh ds de).1
  · rw [if_pos hord, if_neg (not_lt.mpr hord)]
  · have hlt : (segBounds bh ds de).1 < (segBounds bh ds de).2 := not_le.mp hord
    rw [if_neg hord, if_pos hlt]
    split
    · exact le_refl _
    · exact interpolate_uptime_le _ _ _
        (businessObservations_chain obs tz _ _ hs)
        (fun p hp => businessObservations_mem obs tz _ _ p hp)
        (le_of_lt hlt)

lemma calculate_day_uptime_of_active (obs : List Observation) (bh : BusinessHours)
    (tz ds de : Int) (hact : ∀ o ∈ obs, o.status = "active") :
    calculate_day_uptime obs bh tz ds de = ruleSegmentHours bh ds de := by
  rw [calculate_day_uptime_eq, ruleSegmentHours_eq]
  by_cases hord : (segBounds bh ds de).2 ≤ (segBounds bh ds de).1
  · rw [if_pos hord, if_neg (not_lt.mpr hord)]
  · have hlt : (segBounds bh ds de).1 < (segBounds bh ds de).2 := not_le.mp hord
    rw [if_neg hord, if_pos hlt]
    split
    · rfl
    · exact interpolate_uptime_eq_of_active _ _ _
        (fun p hp => businessObservations_mem obs tz _ _ p hp)
        (businessObservations_status obs tz _ _ hact)
        (le_of_lt hlt)

lemma uptimeDayLoop_zero (obs : List Observation) (bhs : List BusinessHours)
    (tz cur endl : Int) : uptimeDayLoop obs bhs tz 0 cur endl = 0 := rfl

lemma uptimeDayLoop_succ (obs : List Observation) (bhs : List BusinessHours)
    (tz : Int) (n : Nat) (cur endl : Int) :
    uptimeDayLoop obs bhs tz (n + 1) cur endl =
      if cur < endl then
        (match get_business_hours_for_day bhs (weekdayOf cur) with
          | some bh =>
              calculate_day_uptime obs bh tz cur (min endl (replaceTime cur (usPerDay - 1)))
          | none => 0)
        + uptimeDayLoop obs bhs tz n (nextMidnight cur) endl
      else 0 := rfl

lemma bhDayLoop_zero (bhs : List BusinessHours) (cur endl : Int) :
    bhDayLoop bhs 0 cur endl = 0 := rfl

lemma bhDayLoop_succ (bhs : List BusinessHours) (n : Nat) (cur endl : Int) :
    bhDayLoop bhs (n + 1) cur endl =
      if cur < endl then
        (match get_business_hours_for_day bhs (weekdayOf cur) with
          | some bh => ruleSegmentHours bh cur (min endl (replaceTime cur (usPerDay - 1)))
          | none => 0)
        + bhDayLoop bhs n (nextMidnight cur) endl
      else 0 := rfl

lemma bhDayLoopUs_zero (bhs : List BusinessHours) (cur endl : Int) :
    bhDayLoopUs bhs 0 cur endl = 0 := rfl

lemma bhDayLoopUs_succ (bhs : List BusinessHours) (n : Nat) (cur endl : Int) :
    bhDayLoopUs bhs (n + 1) cur endl =
      if cur < endl then
        (match get_business_hours_for_day bhs (weekdayOf cur) with
          | some bh => ruleSegmentUs bh cur (min endl (replaceTime cur (usPerDay - 1)))
          | none => 0)
        + bhDayLoopUs bhs n (nextMidnight cur) endl
      else 0 := rfl

lemma uptimeDayLoop_le_bhDayLoop (obs : List Observation) (bhs : List BusinessHours)
    (tz : Int) (hs : List.Pairwise obsLe obs) :
    ∀ (fuel : Nat) (cur endl : Int),
      uptimeDayLoop obs bhs tz fuel cur endl ≤ bhDayLoop bhs fuel cur endl := by
  intro fuel
  induction fuel with
  | zero => intro cur endl; rw [uptimeDayLoop_zero, bhDayLoop_zero]
  | succ n ih =>
    intro cur endl
    rw [uptimeDayLoop_succ, bhDayLoop_succ]
    by_cases h : cur < endl
    · rw [if_pos h, if_pos h]
      cases hbh : get_business_hours_for_day bhs (weekdayOf cur) with
      | some bh =>
        simp only
        exact add_le_add (calculate_day_uptime_le obs bh tz _ _ hs) (ih _ _)
      | none =>
        simp only
        exact add_le_add (le_refl _) (ih _ _)
    · rw [if_neg h, if_neg h]

lemma uptimeDayLoop_eq_bh_of_active (obs : List Observation) (bhs : List BusinessHours)
    (tz : Int) (hact : ∀ o ∈ obs, o.status = "active") :
    ∀ (fuel : Nat) (cur endl : Int),
      uptimeDayLoop obs bhs tz fuel cur endl = bhDayLoop bhs fuel cur endl := by
  intro fuel
  induction fuel with
  | zero => intro cur endl; rw [uptimeDayLoop_zero, bhDayLoop_zero]
  | succ n ih =>
    intro cur endl
    rw [uptimeDayLoop_succ, bhDayLoop_succ]
    by_cases h : cur < endl
    · rw [if_pos h, if_pos h]
      cases hbh : get_business_hours_for_day bhs (weekdayOf cur) with
      | some bh =>
        simp only
        rw [calculate_day_uptime_of_active obs bh tz _ _ hact, ih]
      | none =>
        simp only
        rw [ih]
    · rw [if_neg h, if_neg h]

lemma ruleSegmentHours_eq_us (bh : BusinessHours) (ds de : Int) :
    ruleSegmentHours bh ds de =
      ((ruleSegmentUs bh ds de : Int) : ℚ) / ((usPerHour : Int) : ℚ) := by
  rw [ruleSegmentHours_eq, ruleSegmentUs_eq]
  split
  · rfl
  · simp

lemma bhDayLoop_eq_us (bhs : List BusinessHours) :
    ∀ (fuel : Nat) (cur endl : Int),
      bhDayLoop bhs fuel cur endl =
        ((bhDayLoopUs bhs fuel cur endl : Int) : ℚ) / ((usPerHour : Int) : ℚ) := by
  intro fuel
  induction fuel with
  | zero => intro cur endl; rw [bhDayLoop_zero, bhDayLoopUs_zero]; simp
  | succ n ih =>
    intro cur endl
    rw [bhDayLoop_succ, bhDayLoopUs_succ]
    by_cases h : cur < endl
    · rw [if_pos h, if_pos h]
      cases hbh : get_business_hours_for_day bhs (weekdayOf cur) with
      | some bh =>
        simp only
        rw [ruleSegmentHours_eq_us, ih]
        push_cast
        ring
      | none =>
        simp only
        rw [ih]
        push_cast
        ring
    · rw [if_neg h, if_neg h]
      simp

lemma get_status_observations_sorted (obs : List Observation) (a b : Int) :
    List.Pairwise obsLe (get_status_observations obs a b) :=
  List.sorted_insertionSort obsLe _

lemma get_status_observations_subset (obs : List Observation) (a b : Int) :
    ∀ o ∈ get_status_observations obs a b, o ∈ obs := by
  intro o ho
  unfold get_status_observations at ho
  rw [(List.perm_insertionSort obsLe _).mem_iff] at ho
  exact (List.mem_filter.mp ho).1

lemma metrics_uptime_last_hour_def (obs : List Observation) (rules : List BusinessHours)
    (tz t : Int) :
    (calculate_store_metrics obs rules tz t).uptime_last_hour =
      calculate_uptime_for_period (get_status_observations obs (t - usPerWeek) t)
        (get_business_hours rules) tz (t - usPerHour) t := rfl

lemma metrics_uptime_last_day_def (obs : List Observation) (rules : List BusinessHours)
    (tz t : Int) :
    (calculate_store_metrics obs rules tz t).uptime_last_day =
      calculate_uptime_for_period (get_status_observations obs (t - usPerWeek) t)
        (get_business_hours rules) tz (t - usPerDay) t := rfl

lemma metrics_uptime_last_week_def (obs : List Observation) (rules : List BusinessHours)
    (tz t : Int) :
    (calculate_store_metrics obs rules tz t).uptime_last_week =
      calculate_uptime_for_period (get_status_observations obs (t - usPerWeek) t)
        (get_business_hours rules) tz (t - usPerWeek) t := rfl

lemma metrics_downtime_last_hour_def (obs : List Observation) (rules : List BusinessHours)
    (tz t : Int) :
    (calculate_store_metrics obs rules tz t).downtime_last_hour =
      max 0 (calculate_total_business_hours (get_business_hours rules) tz (t - usPerHour) t * 60
        - (calculate_store_metrics obs rules tz t).uptime_last_hour) := rfl

lemma metrics_downtime_last_day_def (obs : List Observation) (rules : List BusinessHours)
    (tz t : Int) :
    (calculate_store_metrics obs rules tz t).downtime_last_day =
      max 0 (calculate_total_business_hours (get_business_hours rules) tz (t - usPerDay) t
        - (calculate_store_metrics obs rules tz t).uptime_last_day) := rfl

lemma metrics_downtime_last_week_def (obs : List Observation) (rules : List BusinessHours)
    (tz t : Int) :
    (calculate_store_metrics obs rules tz t).downtime_last_week =
      max 0 (calculate_total_business_hours (get_business_hours rules) tz (t - usPerWeek) t
        - (calculate_store_metrics obs rules tz t).uptime_last_week) := rfl

lemma calculate_uptime_for_period_eq (sobs : List Observation) (bhs : List BusinessHours)
    (tz a b : Int) :
    calculate_uptime_for_period sobs bhs tz a b =
      if ((b - a : Int) : ℚ) / ((usPerHour : Int) : ℚ) ≤ 1 then
        uptimeDayLoop sobs bhs tz (dayFuel (a + tz) (b + tz)) (a + tz) (b + tz) * 60
      else uptimeDayLoop sobs bhs tz (dayFuel (a + tz) (b + tz)) (a + tz) (b + tz) := rfl

lemma calculate_total_business_hours_def (bhs : List BusinessHours) (tz a b : Int) :
    calculate_total_business_hours bhs tz a b =
      bhDayLoop bhs (dayFuel (a + tz) (b + tz)) (a + tz) (b + tz) := rfl

lemma period_window_hour (sobs : List Observation) (bhs : List BusinessHours) (tz t : Int) :
    calculate_uptime_for_period sobs bhs tz (t - usPerHour) t =
      uptimeDayLoop sobs bhs tz (dayFuel (t - usPerHour + tz) (t + tz))
        (t - usPerHour + tz) (t + tz) * 60 := by
  rw [calculate_uptime_for_period_eq]
  have h1 : ((t - (t - usPerHour) : Int) : ℚ) = ((usPerHour : Int) : ℚ) := by
    push_cast
    ring
  have hc : ((t - (t - usPerHour) : Int) : ℚ) / ((usPerHour : Int) : ℚ) ≤ 1 := by
    rw [h1, div_self (by norm_num [usPerHour])]
  rw [if_pos hc]

lemma period_window_day (sobs : List Observation) (bhs : List BusinessHours) (tz t : Int) :
    calculate_uptime_for_period sobs bhs tz (t - usPerDay) t =
      uptimeDayLoop sobs bhs tz (dayFuel (t - usPerDay + tz) (t + tz))
        (t - usPerDay + tz) (t + tz) := by
  rw [calculate_uptime_for_period_eq]
  have h1 : ((t - (t - usPerDay) : Int) : ℚ) = ((usPerDay : Int) : ℚ) := by
    push_cast
    ring
  have hc : ¬(((t - (t - usPerDay) : Int) : ℚ) / ((usPerHour : Int) : ℚ) ≤ 1) := by
    rw [h1]
    norm_num [usPerDay, usPerHour]
  rw [if_neg hc]

lemma period_window_week (sobs : List Observation) (bhs : List BusinessHours) (tz t : Int) :
    calculate_uptime_for_period sobs bhs tz (t - usPerWeek) t =
      uptimeDayLoop sobs bhs tz (dayFuel (t - usPerWeek + tz) (t + tz))
        (t - usPerWeek + tz) (t + tz) := by
  rw [calculate_uptime_for_period_eq]
  have h1 : ((t - (t - usPerWeek) : Int) : ℚ) = ((usPerWeek : Int) : ℚ) := by
    push_cast
    ring
  have hc : ¬(((t - (t - usPerWeek) : Int) : ℚ) / ((usPerHour : Int) : ℚ) ≤ 1) := by
    rw [h1]
    norm_num [usPerWeek, usPerHour]
  rw [if_neg hc]

lemma metrics_of_active (obs : List Observation) (rules : List BusinessHours) (tz t : Int)
    (hact : ∀ o ∈ obs, o.status = "active") :
    (calculate_store_metrics obs rules tz t).uptime_last_hour =
        calculate_total_business_hours (get_business_hours rules) tz (t - usPerHour) t * 60
    ∧ (calculate_store_metrics obs rules tz t).uptime_last_day =
        calculate_total_business_hours (get_business_hours rules) tz (t - usPerDay) t
    ∧ (calculate_store_metrics obs rules tz t).uptime_last_week =
        calculate_total_business_hours (get_business_hours rules) tz (t - usPerWeek) t := by
  have hact2 : ∀ o ∈ get_status_observations obs (t - usPerWeek) t, o.status = "active" :=
    fun o ho => hact o (get_status_observations_subset obs _ _ o ho)
  have hloop := uptimeDayLoop_eq_bh_of_active (get_status_observations obs (t - usPerWeek) t)
    (get_business_hours rules) tz hact2
  refine ⟨?_, ?_, ?_⟩
  · rw [metrics_uptime_last_hour_def, period_window_hour, calculate_total_business_hours_def,
      hloop]
  · rw [metrics_uptime_last_day_def, period_window_day, calculate_total_business_hours_def,
      hloop]
  · rw [metrics_uptime_last_week_def, period_window_week, calculate_total_business_hours_def,
      hloop]

lemma uptimeDayLoop_of_ge (obs : List Observation) (bhs : List BusinessHours)
    (tz : Int) (fuel : Nat) (cur endl : Int) (h : endl ≤ cur) :
    uptimeDayLoop obs bhs tz fuel cur endl = 0 := by
  cases fuel with
  | zero => rfl
  | succ n => rw [uptimeDayLoop_succ, if_neg (not_lt.mpr h)]

lemma bhDayLoop_of_ge (bhs : List BusinessHours) (fuel : Nat) (cur endl : Int)
    (h : endl ≤ cur) : bhDayLoop bhs fuel cur endl = 0 := by
  cases fuel with
  | zero => rfl
  | succ n => rw [bhDayLoop_succ, if_neg (not_lt.mpr h)]

lemma dayFuel_pos (a b : Int) (h : a < b) : ∃ n, dayFuel a b = n + 1 := by
  unfold dayFuel
  have h1 : 0 ≤ (b - a).fdiv usPerDay :=
    Int.fdiv_nonneg (by omega) (by norm_num [usPerDay])
  refine ⟨((b - a).fdiv usPerDay + 2).toNat - 1, ?_⟩
  omega

lemma get_business_hours_for_day_eq_none (bhs : List BusinessHours) (w : Int)
    (h : ∀ bh ∈ bhs, bh.day_of_week ≠ w) :
    get_business_hours_for_day bhs w = none := by
  unfold get_business_hours_for_day
  rw [List.find?_eq_none]
  intro bh hbh
  simp [h bh hbh]

lemma get_business_hours_of_ne_nil (rules : List BusinessHours) (h : rules ≠ []) :
    get_business_hours rules = rules := by
  unfold get_business_hours
  rw [if_neg]
  simpa using h

lemma closed_window_uptime (obs : List Observation) (bhs : List BusinessHours)
    (tz a b : Int) (hab : a + tz < b + tz) (hmid : b + tz ≤ nextMidnight (a + tz))
    (hw : get_business_hours_for_day bhs (weekdayOf (a + tz)) = none) :
    calculate_uptime_for_period obs bhs tz a b = 0 := by
  obtain ⟨n, hn⟩ := dayFuel_pos (a + tz) (b + tz) hab
  rw [calculate_uptime_for_period_eq, hn, uptimeDayLoop_succ, if_pos hab, hw,
    uptimeDayLoop_of_ge obs bhs tz n (nextMidnight (a + tz)) (b + tz) hmid]
  split <;> simp

lemma closed_window_bh (bhs : List BusinessHours) (tz a b : Int)
    (hab : a + tz < b + tz) (hmid : b + tz ≤ nextMidnight (a + tz))
    (hw : get_business_hours_for_day bhs (weekdayOf (a + tz)) = none) :
    calculate_total_business_hours bhs tz a b = 0 := by
  obtain ⟨n, hn⟩ := dayFuel_pos (a + tz) (b + tz) hab
  rw [calculate_total_business_hours_def, hn, bhDayLoop_succ, if_pos hab, hw,
    bhDayLoop_of_ge bhs n (nextMidnight (a + tz)) (b + tz) hmid]
  simp

lemma get_all_store_ids_ne_nil (recs : List StoreStatusRec) (h : recs ≠ []) :
    get_all_store_ids recs ≠ [] := by
  obtain ⟨r, rs, rfl⟩ := List.exists_cons_of_ne_nil h
  simp [get_all_store_ids, dedupFirstAux]

lemma write_report_ok (rid : String) (data : List ReportRow) (h : data ≠ []) :
    write_report rid data = Except.ok ("reports/store_report_" ++ rid ++ ".csv") := by
  unfold write_report
  rw [if_neg]
  simpa using h

lemma generate_report_ok (rid : String) (t : Int) (sids : List String)
    (compute : String → Int → Except String UptimeMetrics) (h : sids ≠ []) :
    generate_report rid (Except.ok (t, sids)) compute =
      JobResult.complete (sids.map (reportRowFor compute t))
        ("reports/store_report_" ++ rid ++ ".csv") := by
  unfold generate_report
  dsimp only
  rw [write_report_ok rid _ (by simpa using h)]

lemma run_pipeline_eq (rid : String) (recs : List StoreStatusRec)
    (rulesOf : String → List BusinessHours) (tzOf : String → Int) (h : recs ≠ []) :
    run_report_pipeline rid recs rulesOf tzOf =
      JobResult.complete
        ((get_all_store_ids recs).map (fun sid =>
          rowOfMetrics sid (calculate_store_metrics (storeObservationsOf recs sid)
            (rulesOf sid) (tzOf sid) (get_max_timestamp recs))))
        ("reports/store_report_" ++ rid ++ ".csv") := by
  unfold run_report_pipeline
  rw [generate_report_ok _ _ _ _ (get_all_store_ids_ne_nil recs h)]
  rfl

lemma rowIds_pipeline (rid : String) (recs : List StoreStatusRec)
    (rulesOf : String → List BusinessHours) (tzOf : String → Int) (h : recs ≠ []) :
    rowIdsOf (run_report_pipeline rid recs rulesOf tzOf) = get_all_store_ids recs := by
  rw [run_pipeline_eq rid recs rulesOf tzOf h]
  unfold rowIdsOf
  simp [rowOfMetrics, Function.comp_def]

lemma bh_week_asOf4 :
    calculate_total_business_hours (get_business_hours []) 0 (asOf4 - usPerWeek) asOf4 =
      604793 / 3600 := by
  rw [calculate_total_business_hours_def, bhDayLoop_eq_us]
  have hv : bhDayLoopUs (get_business_hours []) (dayFuel (asOf4 - usPerWeek + 0) (asOf4 + 0))
      (asOf4 - usPerWeek + 0) (asOf4 + 0) = 604793000000 := by decide
  rw [hv]
  norm_num [usPerHour]

lemma bh_day_asOf4 :
    calculate_total_business_hours (get_business_hours []) 0 (asOf4 - usPerDay) asOf4 =
      86399 / 3600 := by
  rw [calculate_total_business_hours_def, bhDayLoop_eq_us]
  have hv : bhDayLoopUs (get_business_hours []) (dayFuel (asOf4 - usPerDay + 0) (asOf4 + 0))
      (asOf4 - usPerDay + 0) (asOf4 + 0) = 86399000000 := by decide
  rw [hv]
  norm_num [usPerHour]

lemma bh_hour_asOf5 :
    calculate_total_business_hours (get_business_hours [rule5]) 0 (asOf5 - usPerHour) asOf5 =
      1 := by
  rw [calculate_total_business_hours_def, bhDayLoop_eq_us]
  have hv : bhDayLoopUs (get_business_hours [rule5])
      (dayFuel (asOf5 - usPerHour + 0) (asOf5 + 0))
      (asOf5 - usPerHour + 0) (asOf5 + 0) = 3600000000 := by decide
  rw [hv]
  norm_num [usPerHour]

/-- Claim C1, counterexample: the pipeline emits a row whose
`uptime_last_day` value is `86399/3600` hours, which is not an integer number
of hundredths, so the emitted field is not rounded to 2 decimal places; no
rounding is applied anywhere in the report path. -/
theorem claim_C1_counterexample :
    run_report_pipeline "r1" singleStoreRecs (fun _ => []) (fun _ => 0) =
      JobResult.complete
        [rowOfMetrics "s" (calculate_store_metrics [⟨asOf4, "active"⟩] [] 0 asOf4)]
        "reports/store_report_r1.csv"
    ∧ (calculate_store_metrics [⟨asOf4, "active"⟩] [] 0 asOf4).uptime_last_day = 86399 / 3600
    ∧ ¬ roundedTo2dp (86399 / 3600) := by
  refine ⟨?_, ?_, ?_⟩
  · rw [run_pipeline_eq "r1" singleStoreRecs _ _ (by simp [singleStoreRecs])]
    rfl
  · exact ((metrics_of_active [⟨asOf4, "active"⟩] [] 0 asOf4 (by decide)).2.1).trans
      bh_day_asOf4
  · rintro ⟨k, hk⟩
    have h3 : (86399 : ℚ) * 100 = (k : ℚ) * 3600 := by
      field_simp at hk
      linarith
    have h4 : (86399 * 100 : Int) = k * 3600 := by exact_mod_cast h3
    omega

/-- Claim C1, amended: no rounding is applied at any stage; every emitted row
carries the six metric values exactly as computed, at full precision. -/
theorem claim_C1_amended (rid : String) (recs : List StoreStatusRec)
    (rulesOf : String → List BusinessHours) (tzOf : String → Int) (h : recs ≠ []) :
    run_report_pipeline rid recs rulesOf tzOf =
      JobResult.complete
        ((get_all_store_ids recs).map (fun sid =>
          rowOfMetrics sid (calculate_store_metrics (storeObservationsOf recs sid)
            (rulesOf sid) (tzOf sid) (get_max_timestamp recs))))
        ("reports/store_report_" ++ rid ++ ".csv") :=
  run_pipeline_eq rid recs rulesOf tzOf h

/-- Witness for claim C1's amended theorem at a concrete dataset. -/
theorem claim_C1_witness :
    run_report_pipeline "w1" unsortedRecs (fun _ => []) (fun _ => 0) =
      JobResult.complete
        ((get_all_store_ids unsortedRecs).map (fun sid =>
          rowOfMetrics sid (calculate_store_metrics (storeObservationsOf unsortedRecs sid)
            [] 0 (get_max_timestamp unsortedRecs))))
        "reports/store_report_w1.csv" := by
  have h := claim_C1_amended "w1" unsortedRecs (fun _ => []) (fun _ => 0)
    (by simp [unsortedRecs])
  exact h.trans (by rfl)

/-- Claim C2: each downtime field is `max 0 (business_hours - uptime)` in the
window's unit, computed uptime never exceeds computed business hours, and
therefore `uptime + downtime` equals the window's total business hours exactly
(so in particular within the 1e-6 tolerance). -/
theorem claim_C2_downtime_derivation (obs : List Observation) (rules : List BusinessHours)
    (tz t : Int) :
    ((calculate_store_metrics obs rules tz t).downtime_last_hour =
      max 0 (calculate_total_business_hours (get_business_hours rules) tz (t - usPerHour) t * 60
        - (calculate_store_metrics obs rules tz t).uptime_last_hour))
    ∧ ((calculate_store_metrics obs rules tz t).downtime_last_day =
      max 0 (calculate_total_business_hours (get_business_hours rules) tz (t - usPerDay) t
        - (calculate_store_metrics obs rules tz t).uptime_last_day))
    ∧ ((calculate_store_metrics obs rules tz t).downtime_last_week =
      max 0 (calculate_total_business_hours (get_business_hours rules) tz (t - usPerWeek) t
        - (calculate_store_metrics obs rules tz t).uptime_last_week))
    ∧ ((calculate_store_metrics obs rules tz t).uptime_last_hour ≤
      calculate_total_business_hours (get_business_hours rules) tz (t - usPerHour) t * 60)
    ∧ ((calculate_store_metrics obs rules tz t).uptime_last_day ≤
      calculate_total_business_hours (get_business_hours rules) tz (t - usPerDay) t)
    ∧ ((calculate_store_metrics obs rules tz t).uptime_last_week ≤
      calculate_total_business_hours (get_business_hours rules) tz (t - usPerWeek) t)
    ∧ ((calculate_store_metrics obs rules tz t).uptime_last_hour
        + (calculate_store_metrics obs rules tz t).downtime_last_hour =
      calculate_total_business_hours (get_business_hours rules) tz (t - usPerHour) t * 60)
    ∧ ((calculate_store_metrics obs rules tz t).uptime_last_day
        + (calculate_store_metrics obs rules tz t).downtime_last_day =
      calculate_total_business_hours (get_business_hours rules) tz (t - usPerDay) t)
    ∧ ((calculate_store_metrics obs rules tz t).uptime_last_week
        + (calculate_store_metrics obs rules tz t).downtime_last_week =
      calculate_total_business_hours (get_business_hours rules) tz (t - usPerWeek) t) := by
  have hs := get_status_observations_sorted obs (t - usPerWeek) t
  have hloop := uptimeDayLoop_le_bhDayLoop (get_status_observations obs (t - usPerWeek) t)
    (get_business_hours rules) tz hs
  have huh : (calculate_store_metrics obs rules tz t).uptime_last_hour ≤
      calculate_total_business_hours (get_business_hours rules) tz (t - usPerHour) t * 60 := by
    rw [metrics_uptime_last_hour_def, period_window_hour, calculate_total_business_hours_def]
    exact mul_le_mul_of_nonneg_right (hloop _ _ _) (by norm_num)
  have hud : (calculate_store_metrics obs rules tz t).uptime_last_day ≤
      calculate_total_business_hours (get_business_hours rules) tz (t - usPerDay) t := by
    rw [metrics_uptime_last_day_def, period_window_day, calculate_total_business_hours_def]
    exact hloop _ _ _
  have huw : (calculate_store_metrics obs rules tz t).uptime_last_week ≤
      calculate_total_business_hours (get_business_hours rules) tz (t - usPerWeek) t := by
    rw [metrics_uptime_last_week_def, period_window_week, calculate_total_business_hours_def]
    exact hloop _ _ _
  have hdh : (calculate_store_metrics obs rules tz t).downtime_last_hour =
      calculate_total_business_hours (get_business_hours rules) tz (t - usPerHour) t * 60
        - (calculate_store_metrics obs rules tz t).uptime_last_hour := by
    rw [metrics_downtime_last_hour_def]
    exact max_eq_right (sub_nonneg.mpr huh)
  have hdd : (calculate_store_metrics obs rules tz t).downtime_last_day =
      calculate_total_business_hours (get_business_hours rules) tz (t - usPerDay) t
        - (calculate_store_metrics obs rules tz t).uptime_last_day := by
    rw [metrics_downtime_last_day_def]
    exact max_eq_right (sub_nonneg.mpr hud)
  have hdw : (calculate_store_metrics obs rules tz t).downtime_last_week =
      calculate_total_business_hours (get_business_hours rules) tz (t - usPerWeek) t
        - (calculate_store_metrics obs rules tz t).uptime_last_week := by
    rw [metrics_downtime_last_week_def]
    exact max_eq_right (sub_nonneg.mpr huw)
  refine ⟨metrics_downtime_last_hour_def obs rules tz t,
    metrics_downtime_last_day_def obs rules tz t,
    metrics_downtime_last_week_def obs rules tz t, huh, hud, huw, ?_, ?_, ?_⟩
  · rw [hdh]; ring
  · rw [hdd]; ring
  · rw [hdw]; ring

/-- Claim C3: the overnight rule Monday 22:00 to 06:00 fully inside the window
[Monday 06:00, Tuesday 06:00) should be credited its full 8-hour span, but the
code credits only `7199999999/3600000000` hours (just under 2 hours): each
day-iteration clamps the segment at 23:59:59.999999 of the same local day and
the next day's iteration re-anchors the rule at its own date, so the
after-midnight portion is never credited. -/
theorem claim_C3_overnight_bug :
    calculate_total_business_hours [rule3] 0 (asOf3 - usPerDay) asOf3 =
      7199999999 / 3600000000
    ∧ ((7199999999 : ℚ) / 3600000000 ≠ 8) := by
  constructor
  · rw [calculate_total_business_hours_def, bhDayLoop_eq_us]
    have hv : bhDayLoopUs [rule3] (dayFuel (asOf3 - usPerDay + 0) (asOf3 + 0))
        (asOf3 - usPerDay + 0) (asOf3 + 0) = 7199999999 := by decide
    rw [hv]
    norm_num [usPerHour]
  · norm_num

/-- Claim C4, counterexample: a store with constant active observations through
the trailing week and the 24/7 default calendar yields
`uptime_last_week = 604793/3600` hours (about 167.998), not 168.0: the 24/7
default rule ends each local day at 23:59:59, losing one second per day. -/
theorem claim_C4_counterexample :
    (calculate_store_metrics weekActiveObs [] 0 asOf4).uptime_last_week = 604793 / 3600
    ∧ ((604793 : ℚ) / 3600 ≠ 168) := by
  constructor
  · exact ((metrics_of_active weekActiveObs [] 0 asOf4 (by decide)).2.2).trans bh_week_asOf4
  · norm_num

/-- Claim C4, amended: with only active observations and the 24/7 default
calendar, the report yields `uptime_last_week = 604793/3600` hours (7 times
86399 seconds, one second short of 168 h per day because the default rule ends
at 23:59:59) and `downtime_last_week = 0.0` exactly. -/
theorem claim_C4_amended (obs : List Observation)
    (hact : ∀ o ∈ obs, o.status = "active") :
    (calculate_store_metrics obs [] 0 asOf4).uptime_last_week = 604793 / 3600
    ∧ (calculate_store_metrics obs [] 0 asOf4).downtime_last_week = 0 := by
  have hu := (metrics_of_active obs [] 0 asOf4 hact).2.2
  constructor
  · exact hu.trans bh_week_asOf4
  · rw [metrics_downtime_last_week_def, hu]
    simp

/-- Witness for claim C4's amended theorem at a concrete observation list. -/
theorem claim_C4_witness :
    (calculate_store_metrics [⟨asOf4 - usPerDay, "active"⟩] [] 0 asOf4).uptime_last_week =
      604793 / 3600
    ∧ (calculate_store_metrics [⟨asOf4 - usPerDay, "active"⟩] [] 0 asOf4).downtime_last_week
      = 0 :=
  claim_C4_amended [⟨asOf4 - usPerDay, "active"⟩] (by decide)

/-- Claim C5: a non-empty business-hours segment with no observations is fully
credited as uptime (optimistic default), and concretely a store with no
observations, a 09:00-17:00 rule on the as-of weekday, and as-of 12:00 local
gets `uptime_last_hour = 60.0` minutes. -/
theorem claim_C5_optimistic :
    (∀ (obs : List Observation) (bh : BusinessHours) (tz ds de : Int),
      (segBounds bh ds de).1 < (segBounds bh ds de).2 →
      businessObservations obs tz (segBounds bh ds de).1 (segBounds bh ds de).2 = [] →
      calculate_day_uptime obs bh tz ds de =
        (((segBounds bh ds de).2 - (segBounds bh ds de).1 : Int) : ℚ) /
          ((usPerHour : Int) : ℚ))
    ∧ (calculate_store_metrics [] [rule5] 0 asOf5).uptime_last_hour = 60 := by
  constructor
  · intro obs bh tz ds de hlt hempty
    rw [calculate_day_uptime_eq, if_neg (not_le.mpr hlt), hempty]
    simp
  · have h := (metrics_of_active [] [rule5] 0 asOf5 (by simp)).1
    rw [h, bh_hour_asOf5]
    norm_num

/-- Witness for claim C5 at a concrete empty segment. -/
theorem claim_C5_witness :
    calculate_day_uptime [] rule5 0 (7 * usPerDay + 11 * usPerHour)
      (7 * usPerDay + 12 * usPerHour) =
      (((segBounds rule5 (7 * usPerDay + 11 * usPerHour)
            (7 * usPerDay + 12 * usPerHour)).2 -
        (segBounds rule5 (7 * usPerDay + 11 * usPerHour)
            (7 * usPerDay + 12 * usPerHour)).1 : Int) : ℚ) /
        ((usPerHour : Int) : ℚ) :=
  claim_C5_optimistic.1 [] rule5 0 _ _ (by decide) (by decide)

/-- Claim C6: for a segment with at least one observation the uptime is exactly
the forward-fill semantics described by the spec — a synthesized boundary at
segment start carrying the earliest observation's state, a synthesized boundary
at segment end carrying the latest observation's state, and each consecutive
interval credited iff the state at its left endpoint is active — and the
day computation dispatches to this interpolation on every non-empty segment
with observations. -/
theorem claim_C6_forward_fill :
    (∀ (pts : List (Int × String)) (ps pe : Int), pts ≠ [] →
      (∀ p ∈ pts, ps ≤ p.1 ∧ p.1 ≤ pe) →
      interpolate_uptime pts ps pe =
        ((specForwardFillUs pts ps pe : Int) : ℚ) / ((usPerHour : Int) : ℚ))
    ∧ (∀ (obs : List Observation) (bh : BusinessHours) (tz ds de : Int),
      (segBounds bh ds de).1 < (segBounds bh ds de).2 →
      businessObservations obs tz (segBounds bh ds de).1 (segBounds bh ds de).2 ≠ [] →
      calculate_day_uptime obs bh tz ds de =
        interpolate_uptime
          (businessObservations obs tz (segBounds bh ds de).1 (segBounds bh ds de).2)
          (segBounds bh ds de).1 (segBounds bh ds de).2) := by
  constructor
  · exact interpolate_eq_specForwardFill
  · intro obs bh tz ds de hlt hne
    rw [calculate_day_uptime_eq, if_neg (not_le.mpr hlt),
      if_neg (by simpa [List.isEmpty_iff] using hne)]

/-- Witness for claim C6 at a concrete point list. -/
theorem claim_C6_witness :
    interpolate_uptime [((5 : Int), "inactive")] 0 10 =
      ((specForwardFillUs [((5 : Int), "inactive")] 0 10 : Int) : ℚ) /
        ((usPerHour : Int) : ℚ) :=
  claim_C6_forward_fill.1 [(5, "inactive")] 0 10 (by simp) (by decide)

/-- Claim C7: with no rules at all every weekday resolves to the implicit
full-day rule 00:00:00-23:59:59; with at least one rule but none for the
requested weekday the lookup returns none, and such a closed day contributes
zero uptime and zero business hours. -/
theorem claim_C7_calendar_lookup :
    (∀ w : Int, 0 ≤ w → w < 7 →
      get_business_hours_for_day (get_business_hours []) w = some ⟨w, 0, mkTime 23 59 59⟩)
    ∧ (∀ (rules : List BusinessHours) (w : Int), rules ≠ [] →
      (∀ bh ∈ rules, bh.day_of_week ≠ w) →
      get_business_hours_for_day (get_business_hours rules) w = none)
    ∧ (∀ (rules : List BusinessHours) (obs : List Observation) (tz a b : Int),
      rules ≠ [] → a + tz < b + tz → b + tz ≤ nextMidnight (a + tz) →
      (∀ bh ∈ rules, bh.day_of_week ≠ weekdayOf (a + tz)) →
      calculate_uptime_for_period obs rules tz a b = 0 ∧
        calculate_total_business_hours rules tz a b = 0) := by
  refine ⟨?_, ?_, ?_⟩
  · intro w h0 h7
    interval_cases w <;> rfl
  · intro rules w hne hnone
    rw [get_business_hours_of_ne_nil rules hne]
    exact get_business_hours_for_day_eq_none rules w hnone
  · intro rules obs tz a b hne hab hmid hnone
    have hw := get_business_hours_for_day_eq_none rules _ hnone
    exact ⟨closed_window_uptime obs rules tz a b hab hmid hw,
      closed_window_bh rules tz a b hab hmid hw⟩

/-- Witness for claim C7 at concrete weekdays and a concrete closed day. -/
theorem claim_C7_witness :
    get_business_hours_for_day (get_business_hours []) 3 = some ⟨3, 0, mkTime 23 59 59⟩
    ∧ get_business_hours_for_day (get_business_hours [rule5]) 2 = none
    ∧ calculate_uptime_for_period [] [rule5] 0 (usPerDay + 10 * usPerHour)
        (usPerDay + 11 * usPerHour) = 0
    ∧ calculate_total_business_hours [rule5] 0 (usPerDay + 10 * usPerHour)
        (usPerDay + 11 * usPerHour) = 0 :=
  ⟨claim_C7_calendar_lookup.1 3 (by decide) (by decide),
    claim_C7_calendar_lookup.2.1 [rule5] 2 (by decide) (by decide),
    (claim_C7_calendar_lookup.2.2 [rule5] [] 0 _ _ (by decide) (by decide) (by decide)
      (by decide)).1,
    (claim_C7_calendar_lookup.2.2 [rule5] [] 0 _ _ (by decide) (by decide) (by decide)
      (by decide)).2⟩

/-- Claim C8, counterexample: a run whose setup succeeded (as-of instant and
store universe both established, the universe being empty) still transitions to
Failed, because writing an empty row set raises — so setup failures are not the
only fatal ones, contradicting the claim's "only" clause. -/
theorem claim_C8_counterexample :
    generate_report "r8" (Except.ok ((0 : Int), ([] : List String)))
      (fun _ _ => Except.error "boom") = JobResult.failed "No data to write to CSV" := rfl

/-- Claim C8, amended: a per-store failure is caught and yields the all-zero
row while the run continues, and with a non-empty store universe the job
reaches Complete; a setup failure transitions to Failed with the captured
message and no output location; additionally a failure writing the output
(e.g. an empty row set) is also fatal. -/
theorem claim_C8_amended (rid : String) (t : Int) (sids : List String)
    (compute : String → Int → Except String UptimeMetrics) (e : String) :
    (generate_report rid (Except.error e) compute = JobResult.failed e)
    ∧ (sids ≠ [] → generate_report rid (Except.ok (t, sids)) compute =
        JobResult.complete (sids.map (reportRowFor compute t))
          ("reports/store_report_" ++ rid ++ ".csv"))
    ∧ (∀ sid msg, compute sid t = Except.error msg → reportRowFor compute t sid = zeroRow sid)
    ∧ (generate_report rid (Except.ok (t, ([] : List String))) compute =
        JobResult.failed "No data to write to CSV") := by
  refine ⟨rfl, ?_, ?_, rfl⟩
  · intro h
    exact generate_report_ok rid t sids compute h
  · intro sid msg h
    unfold reportRowFor
    rw [h]

/-- Witness for claim C8's amended theorem: one store whose computation raises
still produces a Complete job with that store's row all zeros. -/
theorem claim_C8_witness :
    generate_report "w8" (Except.ok ((0 : Int), ["a"])) (fun _ _ => Except.error "boom") =
      JobResult.complete [zeroRow "a"] "reports/store_report_w8.csv" := by
  have h := (claim_C8_amended "w8" 0 ["a"] (fun _ _ => Except.error "boom") "x").2.1
    (by simp)
  exact h.trans (by rfl)

/-- Claim C9, counterexample: for a dataset whose store ids first occur in the
order b, a, c, the emitted rows are in that arrival order, which is neither
ascending nor descending id order — the rows are not sorted by entity id. -/
theorem claim_C9_counterexample :
    rowIdsOf (run_report_pipeline "r9" unsortedRecs (fun _ => []) (fun _ => 0)) =
      ["b", "a", "c"]
    ∧ (["b", "a", "c"] ≠ (["a", "b", "c"] : List String))
    ∧ (["b", "a", "c"] ≠ (["c", "b", "a"] : List String)) := by
  refine ⟨?_, by decide, by decide⟩
  rw [rowIds_pipeline "r9" unsortedRecs _ _ (by simp [unsortedRecs])]
  decide

/-- Claim C9, amended: the emitted rows are one per distinct store id, ordered
exactly as the distinct-id query returns them (first-occurrence order in this
model, since the query has no ORDER BY), not sorted by entity id. -/
theorem claim_C9_amended (rid : String) (recs : List StoreStatusRec)
    (rulesOf : String → List BusinessHours) (tzOf : String → Int) (h : recs ≠ []) :
    rowIdsOf (run_report_pipeline rid recs rulesOf tzOf) = get_all_store_ids recs :=
  rowIds_pipeline rid recs rulesOf tzOf h

/-- Witness for claim C9's amended theorem at a concrete dataset. -/
theorem claim_C9_witness :
    rowIdsOf (run_report_pipeline "w9" singleStoreRecs (fun _ => []) (fun _ => 0)) =
      ["s"] := by
  rw [claim_C9_amended "w9" singleStoreRecs (fun _ => []) (fun _ => 0)
    (by simp [singleStoreRecs])]
  decide

/-- Claim C10: with an empty observation dataset the report job never reaches
Complete: the store universe is empty, the CSV writer raises on the empty row
set, and the job transitions to Failed with that error. -/
theorem claim_C10_empty_dataset (rid : String) (rulesOf : String → List BusinessHours)
    (tzOf : String → Int) :
    run_report_pipeline rid [] rulesOf tzOf = JobResult.failed "No data to write to CSV"
    ∧ ∀ (rows : List ReportRow) (p : String),
        run_report_pipeline rid [] rulesOf tzOf ≠ JobResult.complete rows p := by
  constructor
  · rfl
  · intro rows p hcon
    have h1 : run_report_pipeline rid [] rulesOf tzOf =
        JobResult.failed "No data to write to CSV" := rfl
    rw [h1] at hcon
    exact JobResult.noConfusion hcon

end StoreMonitoring
